import Mathlib

/-!
Shallow embedding of two components of the ModemManager fork under verification:

* the firmware-update settings codec
  (src/libmm-glib/mm-firmware-update-settings.c), and
* the extended-signal polling engine
  (src/src/mm-iface-modem-signal.c).

Pure C functions become Lean functions; the GObject/GLib state (the DBus
skeleton properties, the per-object refresh-context qdata, and the GLib main
loop timeout-source table) becomes an explicit state record threaded through
the operations.  `gdouble` measurement values are carried, never computed on,
by the code under verification, so they are represented by an opaque carrier
type (`Int`); `guint` becomes `Nat`; fallible C functions returning a value or
setting a `GError` become `Except GError _`.
-/

/-! ## Error model

Errors produced by the modelled code are `MM_CORE_ERROR` codes with a message
(from mm-errors-types.h, which is part of the repository but not under the
verified sources); external collaborators (the authorization gate) may hand
back errors from other domains, collapsed here into `otherDomain`. -/

inductive GError where
  | coreInvalidArgs (msg : String)
  | coreFailed (msg : String)
  | coreUnsupported (msg : String)
  | otherDomain (msg : String)
deriving DecidableEq, Repr

/-! ## Settings codec (src/libmm-glib/mm-firmware-update-settings.c) -/

def PROPERTY_FASTBOOT_AT : String := "fastboot-at"

/-- Modelled from the spec: the `MMModemFirmwareUpdateMethod` discriminant
enum lives in the public headers, not under the verified sources.  Spec §6
fixes `Unknown` to 0; the concrete value of `Fastboot` is irrelevant to every
claim (all of them are parametric in it or use it symbolically). -/
def MM_MODEM_FIRMWARE_UPDATE_METHOD_UNKNOWN : Nat := 0

/-- Modelled from the spec: the `Fastboot` discriminant value (see
`MM_MODEM_FIRMWARE_UPDATE_METHOD_UNKNOWN`). -/
def MM_MODEM_FIRMWARE_UPDATE_METHOD_FASTBOOT : Nat := 2

/-- State of an MMFirmwareUpdateSettings object: the `method` discriminant and
the fastboot-specific `fastboot_at` string, `none` modelling the NULL pointer
(struct _MMFirmwareUpdateSettingsPrivate). -/
structure MMFirmwareUpdateSettings where
  method : Nat
  fastboot_at : Option String
deriving DecidableEq, Repr

/-- Embedding of `mm_firmware_update_settings_new`: a fresh object has the
given method and a NULL `fastboot_at` (instance init zeroes the private
struct). -/
def mm_firmware_update_settings_new (method : Nat) : MMFirmwareUpdateSettings :=
  { method := method, fastboot_at := none }

/-- Wire value for the settings codec.  The codec only ever builds and
inspects variants of GVariant type "(ua\x7bsv\x7d)"; every other variant
(wrong outer type) is collapsed into `otherType`.  The map entries recognized
by the codec all carry string payloads, so entry values are represented as
strings. -/
inductive SettingsWire where
  | tuple (method : Nat) (dict : List (String × String))
  | otherType
deriving DecidableEq, Repr

/-- Embedding of `mm_firmware_update_settings_get_variant`.  A NULL `self` is
encoded with method `Unknown` and an empty dictionary.  In the fastboot branch
the C code calls `g_variant_new_string (self->priv->fastboot_at)`, whose
contract requires a non-NULL string; a NULL `fastboot_at` there violates that
contract, modelled as `none`. -/
def mm_firmware_update_settings_get_variant
    (self : Option MMFirmwareUpdateSettings) : Option SettingsWire :=
  let method := match self with
    | some st => st.method
    | none => MM_MODEM_FIRMWARE_UPDATE_METHOD_UNKNOWN
  if method = MM_MODEM_FIRMWARE_UPDATE_METHOD_FASTBOOT then
    match self with
    | some st =>
      match st.fastboot_at with
      | some a => some (.tuple method [(PROPERTY_FASTBOOT_AT, a)])
      | none => none
    | none => none
  else
    some (.tuple method [])

/-- Embedding of `consume_variant`: dispatch on one dictionary key, storing
the value for the single recognized key and rejecting every other key. -/
def consume_variant (self : MMFirmwareUpdateSettings) (key : String)
    (value : String) : Except GError MMFirmwareUpdateSettings :=
  if key = PROPERTY_FASTBOOT_AT then
    .ok { self with fastboot_at := some value }
  else
    .error (.coreInvalidArgs
      ("Invalid settings dictionary, unexpected key: " ++ key))

/-- Embedding of the dictionary iteration loop in
`mm_firmware_update_settings_new_from_variant`: consume entries in order,
stopping at the first error. -/
def consume_entries (self : MMFirmwareUpdateSettings) :
    List (String × String) → Except GError MMFirmwareUpdateSettings
  | [] => .ok self
  | (k, v) :: rest =>
    match consume_variant self k v with
    | .error e => .error e
    | .ok self2 => consume_entries self2 rest

/-- Embedding of `mm_firmware_update_settings_new_from_variant`: reject a NULL
input, reject a wrong outer type, build a fresh object from the discriminant,
consume the dictionary entries, then apply the per-discriminant required-field
validation (only the fastboot discriminant has one). -/
def mm_firmware_update_settings_new_from_variant (variant : Option SettingsWire) :
    Except GError MMFirmwareUpdateSettings :=
  match variant with
  | none => .error (.coreInvalidArgs "No input given")
  | some .otherType => .error (.coreInvalidArgs "Invalid input type")
  | some (.tuple method dict) =>
    match consume_entries (mm_firmware_update_settings_new method) dict with
    | .error e => .error e
    | .ok self =>
      if method = MM_MODEM_FIRMWARE_UPDATE_METHOD_FASTBOOT then
        if self.fastboot_at = none then
          .error (.coreInvalidArgs
            ("Fastboot method requires the " ++ PROPERTY_FASTBOOT_AT ++ " setting"))
        else
          .ok self
      else
        .ok self

/-! ## Extended-signal polling engine (src/src/mm-iface-modem-signal.c) -/

/-- Modelled from the spec: the `MMModemState` enum lives in the public
headers, not under the verified sources.  Spec §3 only distinguishes
below-enabling from enabling-or-above; the concrete value is the public
enum's, and no claim depends on it beyond the ordering.  States below it
(failed, unknown, initializing, locked, disabled, disabling) are smaller
integers; states at or above it (enabled, searching, registered, ...) are
larger. -/
def MM_MODEM_STATE_ENABLING : Int := 5

/-- Published measurement attribute: a "(bd)" pair of an availability flag
and a value.  The value is of C type `gdouble`; the engine only forwards
values (never computes on them), so `Int` serves as the opaque carrier. -/
structure MeasurementPair where
  available : Bool
  value : Int
deriving DecidableEq, Repr

/-- Pair published by `clear_values` for every technology:
`g_variant_new ("(bd)", FALSE, 0.0)`. -/
def unavailablePair : MeasurementPair := { available := false, value := 0 }

/-- State of the MmGdbusModemSignal DBus skeleton: the `Rate` property and
the thirteen per-technology measurement properties. -/
structure SkeletonState where
  rate : Nat
  cdma_rssi : MeasurementPair
  cdma_ecio : MeasurementPair
  evdo_rssi : MeasurementPair
  evdo_ecio : MeasurementPair
  evdo_sinr : MeasurementPair
  evdo_io : MeasurementPair
  gsm_rssi : MeasurementPair
  umts_rssi : MeasurementPair
  umts_ecio : MeasurementPair
  lte_rssi : MeasurementPair
  lte_rsrq : MeasurementPair
  lte_rsrp : MeasurementPair
  lte_snr : MeasurementPair
deriving DecidableEq, Repr

/-- Skeleton-level effect of `clear_values`: every measurement property set
to the unavailable pair; the `Rate` property is not touched. -/
def clear_values_skel (skel : SkeletonState) : SkeletonState :=
  { rate := skel.rate
    cdma_rssi := unavailablePair
    cdma_ecio := unavailablePair
    evdo_rssi := unavailablePair
    evdo_ecio := unavailablePair
    evdo_sinr := unavailablePair
    evdo_io := unavailablePair
    gsm_rssi := unavailablePair
    umts_rssi := unavailablePair
    umts_ecio := unavailablePair
    lte_rssi := unavailablePair
    lte_rsrq := unavailablePair
    lte_rsrp := unavailablePair
    lte_snr := unavailablePair }

/-- Result tuple of the backend's `load_values_finish` on success: five
per-technology availability flags and thirteen values. -/
structure LoadValuesResult where
  cdma_available : Bool
  cdma_rssi : Int
  cdma_ecio : Int
  evdo_available : Bool
  evdo_rssi : Int
  evdo_ecio : Int
  evdo_sinr : Int
  evdo_io : Int
  gsm_available : Bool
  gsm_rssi : Int
  umts_available : Bool
  umts_rssi : Int
  umts_ecio : Int
  lte_available : Bool
  lte_rssi : Int
  lte_rsrq : Int
  lte_rsrp : Int
  lte_snr : Int
deriving DecidableEq, Repr

/-- Skeleton-level effect of the success branch of `load_values_ready`:
publish each technology's (availability, value) pair. -/
def apply_values_skel (skel : SkeletonState) (v : LoadValuesResult) : SkeletonState :=
  { rate := skel.rate
    cdma_rssi := { available := v.cdma_available, value := v.cdma_rssi }
    cdma_ecio := { available := v.cdma_available, value := v.cdma_ecio }
    evdo_rssi := { available := v.evdo_available, value := v.evdo_rssi }
    evdo_ecio := { available := v.evdo_available, value := v.evdo_ecio }
    evdo_sinr := { available := v.evdo_available, value := v.evdo_sinr }
    evdo_io := { available := v.evdo_available, value := v.evdo_io }
    gsm_rssi := { available := v.gsm_available, value := v.gsm_rssi }
    umts_rssi := { available := v.umts_available, value := v.umts_rssi }
    umts_ecio := { available := v.umts_available, value := v.umts_ecio }
    lte_rssi := { available := v.lte_available, value := v.lte_rssi }
    lte_rsrq := { available := v.lte_available, value := v.lte_rsrq }
    lte_rsrp := { available := v.lte_available, value := v.lte_rsrp }
    lte_snr := { available := v.lte_available, value := v.lte_snr } }

/-- Embedding of the C `RefreshContext` struct: the polling rate and the GLib
timeout source id, 0 meaning no source (as in the zero-initialized slice). -/
structure RefreshContext where
  rate : Nat
  timeout_source : Nat
deriving DecidableEq, Repr

/-- State of the GLib main loop's timeout-source table: the next source id
`g_timeout_add_seconds` will hand out (source ids are nonzero) and the list
of armed sources as (id, interval-in-seconds) pairs. -/
structure GSourceEnv where
  next_id : Nat
  active : List (Nat × Nat)
deriving DecidableEq, Repr

/-- Embedding of `g_source_remove`: drop the source with the given id. -/
def g_source_remove (env : GSourceEnv) (id : Nat) : GSourceEnv :=
  { env with active := env.active.filter (fun p => p.1 ≠ id) }

/-- Embedding of `g_timeout_add_seconds`: arm a new recurring source at the
given interval and return its (nonzero, fresh) id. -/
def g_timeout_add_seconds (env : GSourceEnv) (interval : Nat) : Nat × GSourceEnv :=
  (env.next_id,
   { next_id := env.next_id + 1, active := env.active ++ [(env.next_id, interval)] })

/-- Composite state of one signal capability instance: the DBus skeleton (if
created), the owning modem's state (read through the MM_IFACE_MODEM_STATE
property), the refresh-context qdata, the main-loop source table, and a
counter of backend `load_values` invocations (each poll started bumps it). -/
structure SignalState where
  skeleton : Option SkeletonState
  modem_state : Int
  ctx : Option RefreshContext
  sources : GSourceEnv
  polls : Nat
deriving DecidableEq, Repr

/-- Embedding of `clear_values`: a no-op without a skeleton, otherwise reset
every measurement property to unavailable. -/
def clear_values (s : SignalState) : SignalState :=
  match s.skeleton with
  | none => s
  | some skel => { s with skeleton := some (clear_values_skel skel) }

/-- Embedding of `refresh_context_free` (the qdata destroy notify): remove
the context's timeout source, if armed, from the main loop. -/
def refresh_context_free (env : GSourceEnv) (c : RefreshContext) : GSourceEnv :=
  if c.timeout_source ≠ 0 then g_source_remove env c.timeout_source else env

/-- Effect of `g_object_set_qdata (self, refresh_context_quark, NULL)`:
dropping the stored context runs its destroy notify `refresh_context_free`. -/
def destroy_refresh_ctx (s : SignalState) : SignalState :=
  match s.ctx with
  | none => s
  | some c => { s with ctx := none, sources := refresh_context_free s.sources c }

/-- Embedding of `refresh_context_cb`: start one asynchronous backend
`load_values` call (counted in `polls`; its completion is
`load_values_ready`) and return TRUE so the recurring source stays armed. -/
def refresh_context_cb (s : SignalState) : Bool × SignalState :=
  (true, { s with polls := s.polls + 1 })

/-- Embedding of `load_values_ready`, the completion of one poll.  The C
callback returns nothing and frees any backend error after logging it, so the
model returns only the new state: on failure all measurements are cleared and
nothing else changes; on success the values are published to the skeleton
(followed in C by a flush of the skeleton, pure I/O) or dropped with a
warning when the skeleton is gone. -/
def load_values_ready (s : SignalState)
    (res : Except GError LoadValuesResult) : SignalState :=
  match res with
  | .error _ => clear_values s
  | .ok v =>
    match s.skeleton with
    | none => s
    | some skel => { s with skeleton := some (apply_values_skel skel v) }

/-- Embedding of `setup_refresh_context`.  Mirrors the C control flow: fail
without a skeleton; publish or read the rate; the zero-rate teardown path;
the below-enabling early success; lazy context creation; the equal-rate
no-op; and the re-arm path ending in one immediately launched poll. -/
def setup_refresh_context (s : SignalState) (update_rate : Bool)
    (new_rate : Nat) : Except GError Unit × SignalState :=
  match s.skeleton with
  | none => (.error (.coreFailed "Couldn't get interface skeleton"), s)
  | some skel =>
    let skel2 := if update_rate then { skel with rate := new_rate } else skel
    let rate := if update_rate then new_rate else skel.rate
    let s1 : SignalState := { s with skeleton := some skel2 }
    if rate = 0 then
      (.ok (), destroy_refresh_ctx (clear_values s1))
    else if s1.modem_state < MM_MODEM_STATE_ENABLING then
      (.ok (), s1)
    else
      let ctx := s1.ctx.getD { rate := 0, timeout_source := 0 }
      if ctx.rate = rate then
        (.ok (), { s1 with ctx := some ctx })
      else
        let env1 := if ctx.timeout_source ≠ 0 then
            g_source_remove s1.sources ctx.timeout_source
          else
            s1.sources
        let armed := g_timeout_add_seconds env1 rate
        let s2 : SignalState :=
          { s1 with ctx := some { rate := rate, timeout_source := armed.1 },
                    sources := armed.2 }
        (.ok (), (refresh_context_cb s2).2)

/-- Embedding of `teardown_refresh_context`: clear the published values and
drop the refresh context (cancelling its timer via the destroy notify). -/
def teardown_refresh_context (s : SignalState) : SignalState :=
  destroy_refresh_ctx (clear_values s)

/-- Embedding of `mm_iface_modem_signal_enable`: run the scheduling procedure
reading the currently published rate; the result is reported through the
async completion. -/
def mm_iface_modem_signal_enable (s : SignalState) :
    Except GError Unit × SignalState :=
  setup_refresh_context s false 0

/-- Embedding of `mm_iface_modem_signal_disable`: tear down the refresh
context; always completes successfully. -/
def mm_iface_modem_signal_disable (s : SignalState) : SignalState :=
  teardown_refresh_context s

/-- Embedding of the C `HandleSetupContext` (minus the GObject references,
which only manage lifetimes): the requested rate captured by
`handle_setup` for the authorization callback. -/
structure HandleSetupContext where
  rate : Nat
deriving DecidableEq, Repr

/-- Outcome of a Setup invocation as observed by the bus caller. -/
inductive SetupOutcome where
  | errored (e : GError)
  | completed
deriving DecidableEq, Repr

/-- Embedding of `handle_setup`: capture the requested rate and start the
asynchronous authorization check.  No scheduling state is touched; the state
is returned unchanged alongside the pending context. -/
def handle_setup (rate : Nat) (s : SignalState) :
    HandleSetupContext × SignalState :=
  ({ rate := rate }, s)

/-- Embedding of `handle_setup_auth_ready`: on authorization failure the
invocation takes the gate's error verbatim; otherwise the scheduling
procedure runs with the explicit rate and its error (if any) is taken by the
invocation, else the invocation completes. -/
def handle_setup_auth_ready (ctx : HandleSetupContext)
    (auth : Except GError Unit) (s : SignalState) : SetupOutcome × SignalState :=
  match auth with
  | .error e => (.errored e, s)
  | .ok _ =>
    match setup_refresh_context s true ctx.rate with
    | (.error e, s2) => (.errored e, s2)
    | (.ok _, s2) => (.completed, s2)

/-! ## System transition relation

Events of the single-threaded event loop that can touch the modelled state.
The lifecycle driver (the owning device calling the interface operations as
its own state changes) is not under the verified sources. -/

/-- Skeleton as freshly created by `mm_gdbus_modem_signal_skeleton_new` and
then reset by the `clear_values` call in the supported branch of interface
initialization: rate 0, everything unavailable. -/
def initialSkeleton : SkeletonState := clear_values_skel
  { rate := 0
    cdma_rssi := unavailablePair, cdma_ecio := unavailablePair
    evdo_rssi := unavailablePair, evdo_ecio := unavailablePair
    evdo_sinr := unavailablePair, evdo_io := unavailablePair
    gsm_rssi := unavailablePair
    umts_rssi := unavailablePair, umts_ecio := unavailablePair
    lte_rssi := unavailablePair, lte_rsrq := unavailablePair
    lte_rsrp := unavailablePair, lte_snr := unavailablePair }

/-- Events the loop may deliver to one signal capability instance. -/
inductive Event where
  | skeletonInit
  | enable
  | disable
  | setup (auth : Except GError Unit) (rate : Nat)
  | tick (id : Nat)
  | loadReady (res : Except GError LoadValuesResult)
  | deviceState (st : Int)
  | shutdownIface

/-- One step of the event loop.  `skeletonInit` is the supported branch of
`mm_iface_modem_signal_initialize` creating the skeleton (idempotent);
`setup` is a full authorized-Setup round (`handle_setup` then
`handle_setup_auth_ready` with the gate's verdict); `tick` fires an armed
timeout source, whose callback is `refresh_context_cb`; `loadReady` is a
poll completion; `shutdownIface` is `mm_iface_modem_signal_shutdown`.
`deviceState` is modelled from the spec: the owning device (whose driver
code is outside the verified sources) changes state and, per spec §2/§3
("the owning Device drives initialize/enable/disable as its own state
changes"; the refresh context "is destroyed on disable or shutdown"),
drives `disable` whenever it drops below enabling. -/
def step (s : SignalState) : Event → SignalState
  | .skeletonInit =>
    match s.skeleton with
    | some _ => s
    | none => clear_values { s with skeleton := some initialSkeleton }
  | .enable => (mm_iface_modem_signal_enable s).2
  | .disable => mm_iface_modem_signal_disable s
  | .setup auth rate =>
    let pend := handle_setup rate s
    (handle_setup_auth_ready pend.1 auth pend.2).2
  | .tick id =>
    if s.sources.active.any (fun p => p.1 = id) then (refresh_context_cb s).2 else s
  | .loadReady res => load_values_ready s res
  | .deviceState st =>
    if st < MM_MODEM_STATE_ENABLING then
      mm_iface_modem_signal_disable { s with modem_state := st }
    else
      { s with modem_state := st }
  | .shutdownIface => { s with skeleton := none }

/-- State of a freshly created capability instance: no skeleton, no refresh
context, no armed sources (the first GLib source id is 1), modem state
unknown (0, below enabling). -/
def initState : SignalState :=
  { skeleton := none, modem_state := 0, ctx := none,
    sources := { next_id := 1, active := [] }, polls := 0 }

/-- States reachable from `initState` by event-loop steps. -/
inductive Reachable : SignalState → Prop where
  | base : Reachable initState
  | next (s : SignalState) (e : Event) : Reachable s → Reachable (step s e)

/-- Scheduling invariant tying the refresh context and the source table to
the modem state: an armed source table means the modem was at least enabling;
a live context owns exactly the one armed source; no context, no sources;
and source ids stay positive. -/
def SchedInv (s : SignalState) : Prop :=
  (s.sources.active ≠ [] → MM_MODEM_STATE_ENABLING ≤ s.modem_state) ∧
  (∀ c, s.ctx = some c →
    c.timeout_source ≠ 0 ∧ s.sources.active = [(c.timeout_source, c.rate)]) ∧
  (s.ctx = none → s.sources.active = []) ∧
  0 < s.sources.next_id

/-- Predicate stating that every measurement property of a skeleton reads
unavailable. -/
def allCleared (sk : SkeletonState) : Prop :=
  sk.cdma_rssi = unavailablePair ∧ sk.cdma_ecio = unavailablePair ∧
  sk.evdo_rssi = unavailablePair ∧ sk.evdo_ecio = unavailablePair ∧
  sk.evdo_sinr = unavailablePair ∧ sk.evdo_io = unavailablePair ∧
  sk.gsm_rssi = unavailablePair ∧ sk.umts_rssi = unavailablePair ∧
  sk.umts_ecio = unavailablePair ∧ sk.lte_rssi = unavailablePair ∧
  sk.lte_rsrq = unavailablePair ∧ sk.lte_rsrp = unavailablePair ∧
  sk.lte_snr = unavailablePair

lemma allCleared_clear_values_skel (skel : SkeletonState) :
    allCleared (clear_values_skel skel) := by
  simp [allCleared, clear_values_skel]

/-! ## Field-preservation helper lemmas for the signal engine -/

@[simp] lemma clear_values_modem_state (s : SignalState) :
    (clear_values s).modem_state = s.modem_state := by
  cases h : s.skeleton <;> simp [clear_values, h]

@[simp] lemma clear_values_ctx (s : SignalState) :
    (clear_values s).ctx = s.ctx := by
  cases h : s.skeleton <;> simp [clear_values, h]

@[simp] lemma clear_values_sources (s : SignalState) :
    (clear_values s).sources = s.sources := by
  cases h : s.skeleton <;> simp [clear_values, h]

@[simp] lemma clear_values_polls (s : SignalState) :
    (clear_values s).polls = s.polls := by
  cases h : s.skeleton <;> simp [clear_values, h]

lemma clear_values_skeleton_some (s : SignalState) (skel : SkeletonState)
    (h : s.skeleton = some skel) :
    (clear_values s).skeleton = some (clear_values_skel skel) := by
  simp [clear_values, h]

@[simp] lemma destroy_refresh_ctx_skeleton (s : SignalState) :
    (destroy_refresh_ctx s).skeleton = s.skeleton := by
  cases h : s.ctx <;> simp [destroy_refresh_ctx, h]

@[simp] lemma destroy_refresh_ctx_modem_state (s : SignalState) :
    (destroy_refresh_ctx s).modem_state = s.modem_state := by
  cases h : s.ctx <;> simp [destroy_refresh_ctx, h]

@[simp] lemma destroy_refresh_ctx_polls (s : SignalState) :
    (destroy_refresh_ctx s).polls = s.polls := by
  cases h : s.ctx <;> simp [destroy_refresh_ctx, h]

@[simp] lemma destroy_refresh_ctx_ctx (s : SignalState) :
    (destroy_refresh_ctx s).ctx = none := by
  cases h : s.ctx <;> simp [destroy_refresh_ctx, h]

@[simp] lemma g_source_remove_next_id (env : GSourceEnv) (id : Nat) :
    (g_source_remove env id).next_id = env.next_id := rfl

@[simp] lemma refresh_context_free_next_id (env : GSourceEnv) (c : RefreshContext) :
    (refresh_context_free env c).next_id = env.next_id := by
  by_cases h : c.timeout_source ≠ 0 <;> simp [refresh_context_free, h]

/-! ## Codec claims -/

/-- C7: decoding a NULL/absent outer value, or one whose outer shape is not
the (uint32 discriminant, string-to-tagged-value map) tuple, fails with
InvalidArguments; in both cases the decoder returns before any map entry is
consumed and without constructing a settings object (the error is produced
ahead of `mm_firmware_update_settings_new` and of the dictionary loop). -/
theorem codec_C7_null_or_wrong_outer_type :
    mm_firmware_update_settings_new_from_variant none =
      .error (.coreInvalidArgs "No input given") ∧
    mm_firmware_update_settings_new_from_variant (some .otherType) =
      .error (.coreInvalidArgs "Invalid input type") :=
  ⟨rfl, rfl⟩

lemma consume_entries_unknown_key :
    ∀ (dict : List (String × String)) (self : MMFirmwareUpdateSettings),
      (∃ kv ∈ dict, kv.1 ≠ PROPERTY_FASTBOOT_AT) →
      ∃ msg, consume_entries self dict = .error (.coreInvalidArgs msg) := by
  intro dict
  induction dict with
  | nil => intro self h; simp at h
  | cons kv rest ih =>
    intro self h
    obtain ⟨k, v⟩ := kv
    by_cases hk : k = PROPERTY_FASTBOOT_AT
    · subst hk
      obtain ⟨p, hp, hne⟩ := h
      rcases List.mem_cons.mp hp with hhead | htail
      · exact absurd (congrArg Prod.fst hhead) hne
      · obtain ⟨msg, hmsg⟩ := ih { self with fastboot_at := some v } ⟨p, htail, hne⟩
        exact ⟨msg, by simp [consume_entries, consume_variant, hmsg]⟩
    · exact ⟨"Invalid settings dictionary, unexpected key: " ++ k,
        by simp [consume_entries, consume_variant, hk]⟩

/-- C8: for every discriminant and every well-shaped input map containing at
least one key other than "fastboot-at", decoding fails with InvalidArguments
(the first unrecognized key reached by the dictionary loop is a hard error)
and no settings object is returned. -/
theorem codec_C8_unknown_key_rejected (method : Nat)
    (dict : List (String × String))
    (h : ∃ kv ∈ dict, kv.1 ≠ PROPERTY_FASTBOOT_AT) :
    ∃ msg, mm_firmware_update_settings_new_from_variant
      (some (.tuple method dict)) = .error (.coreInvalidArgs msg) := by
  obtain ⟨msg, hmsg⟩ :=
    consume_entries_unknown_key dict (mm_firmware_update_settings_new method) h
  exact ⟨msg, by simp [mm_firmware_update_settings_new_from_variant, hmsg]⟩

theorem codec_C8_witness :
    (∃ kv ∈ [("bogus", "x")], kv.1 ≠ PROPERTY_FASTBOOT_AT) ∧
    ∃ msg, mm_firmware_update_settings_new_from_variant
      (some (.tuple 0 [("bogus", "x")])) = .error (.coreInvalidArgs msg) :=
  ⟨by decide, codec_C8_unknown_key_rejected 0 [("bogus", "x")] (by decide)⟩

lemma consume_entries_all_fastboot :
    ∀ (dict : List (String × String)) (self : MMFirmwareUpdateSettings),
      (∀ p ∈ dict, p.1 = PROPERTY_FASTBOOT_AT) →
      consume_entries self dict =
        .ok { method := self.method,
              fastboot_at := match dict.getLast? with
                | some kv => some kv.2
                | none => self.fastboot_at } := by
  intro dict
  induction dict with
  | nil => intro self _; rfl
  | cons kv rest ih =>
    intro self h
    obtain ⟨k, v⟩ := kv
    have hk : k = PROPERTY_FASTBOOT_AT := h (k, v) (List.mem_cons_self _ _)
    have hrest : ∀ p ∈ rest, p.1 = PROPERTY_FASTBOOT_AT :=
      fun p hp => h p (List.mem_cons_of_mem _ hp)
    have step1 : consume_entries self ((k, v) :: rest) =
        consume_entries { self with fastboot_at := some v } rest := by
      simp [consume_entries, consume_variant, hk]
    rw [step1, ih { self with fastboot_at := some v } hrest]
    cases rest with
    | nil => rfl
    | cons q qs =>
      rw [List.getLast?_cons_cons]
      cases hq : (q :: qs).getLast? with
      | none => exact absurd (List.getLast?_eq_none_iff.mp hq) (by simp)
      | some kv2 => simp [hq]

/-- C9, counterexample: a well-shaped Fastboot input in which an entry does
supply "fastboot-at" as a string nevertheless fails to decode, because the
dictionary also carries an unrecognized key; so it is not true that every
well-shaped Fastboot input with a "fastboot-at" entry decodes successfully. -/
theorem codec_C9_counterexample :
    mm_firmware_update_settings_new_from_variant
      (some (.tuple MM_MODEM_FIRMWARE_UPDATE_METHOD_FASTBOOT
        [(PROPERTY_FASTBOOT_AT, "AT^FASTBOOT"), ("bogus", "x")])) =
    .error (.coreInvalidArgs "Invalid settings dictionary, unexpected key: bogus") :=
  rfl

/-- C9, amended: for every well-shaped Fastboot input whose map contains no
unrecognized key (every key is "fastboot-at"): if no entry sets
"fastboot-at" (the map is empty), decoding fails with InvalidArguments
naming the missing field; if entries supply "fastboot-at" as strings,
decoding succeeds and the resulting settings' fastboot-at field equals the
last supplied string. -/
theorem codec_C9_fastboot_required_field :
    (mm_firmware_update_settings_new_from_variant
        (some (.tuple MM_MODEM_FIRMWARE_UPDATE_METHOD_FASTBOOT [])) =
      .error (.coreInvalidArgs
        ("Fastboot method requires the " ++ PROPERTY_FASTBOOT_AT ++ " setting"))) ∧
    (∀ (dict : List (String × String)) (kv : String × String),
      (∀ p ∈ dict, p.1 = PROPERTY_FASTBOOT_AT) →
      dict.getLast? = some kv →
      mm_firmware_update_settings_new_from_variant
        (some (.tuple MM_MODEM_FIRMWARE_UPDATE_METHOD_FASTBOOT dict)) =
        .ok { method := MM_MODEM_FIRMWARE_UPDATE_METHOD_FASTBOOT,
              fastboot_at := some kv.2 }) := by
  constructor
  · rfl
  · intro dict kv hkeys hlast
    have hc := consume_entries_all_fastboot dict
      (mm_firmware_update_settings_new MM_MODEM_FIRMWARE_UPDATE_METHOD_FASTBOOT) hkeys
    rw [hlast] at hc
    simp [mm_firmware_update_settings_new] at hc
    simp [mm_firmware_update_settings_new_from_variant,
      mm_firmware_update_settings_new, hc]

theorem codec_C9_witness :
    (∀ p ∈ [(PROPERTY_FASTBOOT_AT, "AT^FASTBOOT")], p.1 = PROPERTY_FASTBOOT_AT) ∧
    [(PROPERTY_FASTBOOT_AT, "AT^FASTBOOT")].getLast? =
      some (PROPERTY_FASTBOOT_AT, "AT^FASTBOOT") ∧
    mm_firmware_update_settings_new_from_variant
      (some (.tuple MM_MODEM_FIRMWARE_UPDATE_METHOD_FASTBOOT
        [(PROPERTY_FASTBOOT_AT, "AT^FASTBOOT")])) =
      .ok { method := MM_MODEM_FIRMWARE_UPDATE_METHOD_FASTBOOT,
            fastboot_at := some "AT^FASTBOOT" } :=
  ⟨by decide, rfl,
   codec_C9_fastboot_required_field.2 [(PROPERTY_FASTBOOT_AT, "AT^FASTBOOT")]
     (PROPERTY_FASTBOOT_AT, "AT^FASTBOOT") (by decide) rfl⟩

/-- C10: for every discriminant other than Fastboot, including values outside
the currently defined enum set, decoding the well-shaped input (d, empty map)
succeeds with discriminant d and an unset fastboot-at field; moreover no
required-field validation is applied to such discriminants: whenever the
dictionary loop succeeds, decoding succeeds with exactly its result. -/
theorem codec_C10_non_fastboot_no_validation (d : Nat)
    (hd : d ≠ MM_MODEM_FIRMWARE_UPDATE_METHOD_FASTBOOT) :
    mm_firmware_update_settings_new_from_variant (some (.tuple d [])) =
      .ok { method := d, fastboot_at := none } ∧
    ∀ (dict : List (String × String)) (self : MMFirmwareUpdateSettings),
      consume_entries (mm_firmware_update_settings_new d) dict = .ok self →
      mm_firmware_update_settings_new_from_variant (some (.tuple d dict)) =
        .ok self := by
  constructor
  · simp [mm_firmware_update_settings_new_from_variant, consume_entries,
      mm_firmware_update_settings_new, hd]
  · intro dict self h
    simp [mm_firmware_update_settings_new_from_variant, h, hd]

theorem codec_C10_witness :
    (7 : Nat) ≠ MM_MODEM_FIRMWARE_UPDATE_METHOD_FASTBOOT ∧
    mm_firmware_update_settings_new_from_variant (some (.tuple 7 [])) =
      .ok { method := 7, fastboot_at := none } :=
  ⟨by decide, (codec_C10_non_fastboot_no_validation 7 (by decide)).1⟩

/-- C1: round-trip.  For every valid settings value (its discriminant's
required fields are set: a Fastboot settings has a non-NULL fastboot-at
string), encoding succeeds and decoding the produced tagged value yields a
settings with the same discriminant and the same values for the fields
belonging to that discriminant (fastboot-at is a field of the Fastboot
discriminant only: spec §3 defines Settings as a tagged record of the
discriminant plus method-specific fields, and the fastboot-at getter is
gated on the Fastboot method). -/
theorem codec_C1_roundtrip (st : MMFirmwareUpdateSettings)
    (hvalid : st.method = MM_MODEM_FIRMWARE_UPDATE_METHOD_FASTBOOT →
      st.fastboot_at ≠ none) :
    ∃ wire st2,
      mm_firmware_update_settings_get_variant (some st) = some wire ∧
      mm_firmware_update_settings_new_from_variant (some wire) = .ok st2 ∧
      st2.method = st.method ∧
      (st.method = MM_MODEM_FIRMWARE_UPDATE_METHOD_FASTBOOT →
        st2.fastboot_at = st.fastboot_at) := by
  by_cases hm : st.method = MM_MODEM_FIRMWARE_UPDATE_METHOD_FASTBOOT
  · cases hfb : st.fastboot_at with
    | none => exact absurd hfb (hvalid hm)
    | some a =>
      refine ⟨.tuple st.method [(PROPERTY_FASTBOOT_AT, a)],
        { method := st.method, fastboot_at := some a }, ?_, ?_, rfl, fun _ => rfl⟩
      · simp [mm_firmware_update_settings_get_variant, hm, hfb]
      · simp [mm_firmware_update_settings_new_from_variant, consume_entries,
          consume_variant, mm_firmware_update_settings_new, hm]
  · refine ⟨.tuple st.method [], { method := st.method, fastboot_at := none },
      ?_, ?_, rfl, fun h => absurd h hm⟩
    · simp [mm_firmware_update_settings_get_variant, hm]
    · simp [mm_firmware_update_settings_new_from_variant, consume_entries,
        mm_firmware_update_settings_new, hm]

theorem codec_C1_witness :
    ∃ wire st2,
      mm_firmware_update_settings_get_variant
        (some { method := MM_MODEM_FIRMWARE_UPDATE_METHOD_FASTBOOT,
                fastboot_at := some "AT^FASTBOOT" }) = some wire ∧
      mm_firmware_update_settings_new_from_variant (some wire) = .ok st2 ∧
      st2.method = MM_MODEM_FIRMWARE_UPDATE_METHOD_FASTBOOT ∧
      (MM_MODEM_FIRMWARE_UPDATE_METHOD_FASTBOOT =
          MM_MODEM_FIRMWARE_UPDATE_METHOD_FASTBOOT →
        st2.fastboot_at = some "AT^FASTBOOT") :=
  codec_C1_roundtrip
    { method := MM_MODEM_FIRMWARE_UPDATE_METHOD_FASTBOOT,
      fastboot_at := some "AT^FASTBOOT" }
    (by decide)

/-! ## Signal engine claims -/

/-- Sample state with the modem enabled and a timer armed at rate 5; equal to
the state reached from `initState` by initializing the skeleton, the device
moving to enabled (6), and an authorized Setup(5). -/
def armedState : SignalState :=
  { skeleton := some { initialSkeleton with rate := 5 }, modem_state := 6,
    ctx := some { rate := 5, timeout_source := 1 },
    sources := { next_id := 2, active := [(1, 5)] }, polls := 1 }

/-- C4: a Setup invocation denied by the authorization gate fails with
exactly the gate's error and mutates nothing: `handle_setup` itself only
captures the requested rate and starts the asynchronous authorization check
(the rate change is never performed before authorization succeeds), and the
denied completion returns the state untouched — published rate, refresh
context and timer included — with the gate's error taken verbatim by the
invocation. -/
theorem signal_C4_auth_denied_unchanged (rate : Nat) (s : SignalState)
    (e : GError) :
    (handle_setup rate s).2 = s ∧
    handle_setup_auth_ready { rate := rate } (.error e) s = (.errored e, s) :=
  ⟨rfl, rfl⟩

/-- C5: when a poll's backend load operation completes with an error, the
completion handler clears every published measurement to unavailable and
touches nothing else: the source table, the refresh context, the poll
counter and the modem state are unchanged (the timer is neither cancelled,
paused nor re-armed, so the next tick fires at the configured interval —
the tick callback keeps returning TRUE), and the handler returns no error
to bus callers (the C callback frees the error after logging it; the model
returns only the state). -/
theorem signal_C5_backend_failure_is_soft (s : SignalState) (e : GError) :
    (load_values_ready s (.error e)).sources = s.sources ∧
    (load_values_ready s (.error e)).ctx = s.ctx ∧
    (load_values_ready s (.error e)).polls = s.polls ∧
    (load_values_ready s (.error e)).modem_state = s.modem_state ∧
    (∀ skel, s.skeleton = some skel →
      (load_values_ready s (.error e)).skeleton = some (clear_values_skel skel) ∧
      allCleared (clear_values_skel skel)) ∧
    (refresh_context_cb (load_values_ready s (.error e))).1 = true := by
  have h : load_values_ready s (.error e) = clear_values s := rfl
  rw [h]
  exact ⟨clear_values_sources s, clear_values_ctx s, clear_values_polls s,
    clear_values_modem_state s,
    fun skel hskel => ⟨clear_values_skeleton_some s skel hskel,
      allCleared_clear_values_skel skel⟩,
    rfl⟩

theorem signal_C5_witness :
    (load_values_ready armedState (.error (.otherDomain "modem timeout"))).sources =
      armedState.sources ∧
    (load_values_ready armedState (.error (.otherDomain "modem timeout"))).ctx =
      armedState.ctx ∧
    (load_values_ready armedState (.error (.otherDomain "modem timeout"))).polls =
      armedState.polls ∧
    (load_values_ready armedState (.error (.otherDomain "modem timeout"))).modem_state =
      armedState.modem_state ∧
    (∀ skel, armedState.skeleton = some skel →
      (load_values_ready armedState
        (.error (.otherDomain "modem timeout"))).skeleton =
          some (clear_values_skel skel) ∧
      allCleared (clear_values_skel skel)) ∧
    (refresh_context_cb (load_values_ready armedState
      (.error (.otherDomain "modem timeout")))).1 = true :=
  signal_C5_backend_failure_is_soft armedState (.otherDomain "modem timeout")

/-- C3: the scheduling procedure is idempotent for an unchanged nonzero rate.
With a refresh context present whose rate equals the requested rate and whose
timer is armed, an explicit-rate invocation returns success and changes
nothing but re-publishing the same rate attribute: the context, the source
table (so the armed timer and its next-fire time) and the poll counter (so
no immediate poll) are untouched; and the implicit-rate invocation (the
enable path) with the published rate already equal changes nothing at all. -/
theorem signal_C3_idempotent_same_rate (s : SignalState) (skel : SkeletonState)
    (c : RefreshContext) (r : Nat) (hskel : s.skeleton = some skel)
    (hctx : s.ctx = some c) (hrate : c.rate = r) (hr : r ≠ 0)
    (harmed : c.timeout_source ≠ 0) :
    setup_refresh_context s true r =
      (.ok (), { s with skeleton := some { skel with rate := r } }) ∧
    (skel.rate = r → setup_refresh_context s false 0 = (.ok (), s)) := by
  obtain ⟨sk, ms, cx, so, po⟩ := s
  obtain rfl : sk = some skel := hskel
  obtain rfl : cx = some c := hctx
  subst hrate
  constructor
  · by_cases hms : ms < MM_MODEM_STATE_ENABLING
    · simp [setup_refresh_context, hr, hms]
    · simp [setup_refresh_context, hr, hms]
  · intro hsr
    by_cases hms : ms < MM_MODEM_STATE_ENABLING
    · simp [setup_refresh_context, hr, hms, hsr]
    · simp [setup_refresh_context, hr, hms, hsr]

theorem signal_C3_witness :
    setup_refresh_context armedState true 5 =
      (.ok (), { armedState with
        skeleton := some { { initialSkeleton with rate := 5 } with rate := 5 } }) ∧
    (({ initialSkeleton with rate := 5 } : SkeletonState).rate = 5 →
      setup_refresh_context armedState false 0 = (.ok (), armedState)) :=
  signal_C3_idempotent_same_rate armedState { initialSkeleton with rate := 5 }
    { rate := 5, timeout_source := 1 } 5 rfl rfl rfl (by decide) (by decide)

/-- C6: every invocation of the scheduling procedure whose effective rate is
0 — supplied explicitly (update_rate with 0) or read from the published rate
attribute — returns success, destroys the refresh context, cancels its
armed timer via the context's destroy notify (the context's source id is
gone from the source table, which is otherwise only shrunk, never re-armed),
clears every published measurement to unavailable, launches no poll, and
leaves the rate attribute reading 0 (the explicitly supplied 0, or the
already-published 0). -/
theorem signal_C6_rate_zero_teardown (s : SignalState) (skel : SkeletonState)
    (u : Bool) (r : Nat) (hskel : s.skeleton = some skel)
    (h0 : (if u then r else skel.rate) = 0) :
    (setup_refresh_context s u r).1 = .ok () ∧
    (setup_refresh_context s u r).2.ctx = none ∧
    (∃ sk2, (setup_refresh_context s u r).2.skeleton = some sk2 ∧
      sk2.rate = 0 ∧ allCleared sk2) ∧
    (∀ c, s.ctx = some c →
      (setup_refresh_context s u r).2.sources = refresh_context_free s.sources c ∧
      (c.timeout_source ≠ 0 → ∀ iv,
        (c.timeout_source, iv) ∉ (setup_refresh_context s u r).2.sources.active)) ∧
    (s.ctx = none → (setup_refresh_context s u r).2.sources = s.sources) ∧
    (setup_refresh_context s u r).2.polls = s.polls := by
  obtain ⟨sk, ms, cx, so, po⟩ := s
  obtain rfl : sk = some skel := hskel
  have hres : setup_refresh_context ⟨some skel, ms, cx, so, po⟩ u r =
      (.ok (), destroy_refresh_ctx (clear_values
        ⟨some (if u then { skel with rate := r } else skel), ms, cx, so, po⟩)) := by
    simp [setup_refresh_context, h0]
  rw [hres]
  refine ⟨rfl, destroy_refresh_ctx_ctx _, ?_, ?_, ?_, ?_⟩
  · refine ⟨clear_values_skel (if u then { skel with rate := r } else skel), ?_, ?_,
      allCleared_clear_values_skel _⟩
    · rw [destroy_refresh_ctx_skeleton]
      exact clear_values_skeleton_some _ _ rfl
    · cases u with
      | true => simpa [clear_values_skel] using h0
      | false => simpa [clear_values_skel] using h0
  · intro c hc
    obtain rfl : cx = some c := hc
    constructor
    · simp [destroy_refresh_ctx, clear_values]
    · intro hts iv
      simp [destroy_refresh_ctx, clear_values, refresh_context_free, hts,
        g_source_remove, List.mem_filter]
  · intro hc
    obtain rfl : cx = none := hc
    simp [destroy_refresh_ctx, clear_values]
  · rw [destroy_refresh_ctx_polls, clear_values_polls]

theorem signal_C6_witness :
    (setup_refresh_context armedState true 0).1 = .ok () ∧
    (setup_refresh_context armedState true 0).2.ctx = none ∧
    (∃ sk2, (setup_refresh_context armedState true 0).2.skeleton = some sk2 ∧
      sk2.rate = 0 ∧ allCleared sk2) ∧
    (∀ c, armedState.ctx = some c →
      (setup_refresh_context armedState true 0).2.sources =
        refresh_context_free armedState.sources c ∧
      (c.timeout_source ≠ 0 → ∀ iv,
        (c.timeout_source, iv) ∉
          (setup_refresh_context armedState true 0).2.sources.active)) ∧
    (armedState.ctx = none →
      (setup_refresh_context armedState true 0).2.sources = armedState.sources) ∧
    (setup_refresh_context armedState true 0).2.polls = armedState.polls :=
  signal_C6_rate_zero_teardown armedState { initialSkeleton with rate := 5 }
    true 0 rfl (by decide)

/-! ## Scheduling invariant machinery for C2 -/

lemma sched_inv_fields (t s : SignalState) (hm : t.modem_state = s.modem_state)
    (hc : t.ctx = s.ctx) (hs : t.sources = s.sources) (h : SchedInv s) :
    SchedInv t := by
  unfold SchedInv at h ⊢
  rw [hm, hc, hs]
  exact h

lemma sched_inv_of_none_empty (t : SignalState) (hctx : t.ctx = none)
    (hact : t.sources.active = []) (hnext : 0 < t.sources.next_id) :
    SchedInv t :=
  ⟨fun hne => absurd hact hne,
   fun _ hc => Option.noConfusion (hctx.symm.trans hc),
   fun _ => hact, hnext⟩

lemma destroy_refresh_ctx_sources (s : SignalState) :
    (destroy_refresh_ctx s).sources =
      match s.ctx with
      | none => s.sources
      | some c => refresh_context_free s.sources c := by
  cases h : s.ctx <;> simp [destroy_refresh_ctx, h]

lemma teardown_sources (s : SignalState) :
    (teardown_refresh_context s).sources =
      match s.ctx with
      | none => s.sources
      | some c => refresh_context_free s.sources c := by
  unfold teardown_refresh_context
  rw [destroy_refresh_ctx_sources]
  simp only [clear_values_ctx, clear_values_sources]

lemma teardown_active_empty (s : SignalState)
    (h2 : ∀ c, s.ctx = some c →
      c.timeout_source ≠ 0 ∧ s.sources.active = [(c.timeout_source, c.rate)])
    (h3 : s.ctx = none → s.sources.active = []) :
    (teardown_refresh_context s).sources.active = [] := by
  rw [teardown_sources]
  cases hc : s.ctx with
  | none => simpa using h3 hc
  | some c =>
    obtain ⟨hts, hact⟩ := h2 c hc
    simp [refresh_context_free, hts, g_source_remove, hact]

lemma teardown_next_id (s : SignalState) :
    (teardown_refresh_context s).sources.next_id = s.sources.next_id := by
  rw [teardown_sources]
  cases hc : s.ctx <;> simp

lemma teardown_ctx_none (s : SignalState) :
    (teardown_refresh_context s).ctx = none :=
  destroy_refresh_ctx_ctx _

lemma teardown_polls (s : SignalState) :
    (teardown_refresh_context s).polls = s.polls := by
  unfold teardown_refresh_context
  rw [destroy_refresh_ctx_polls, clear_values_polls]

lemma teardown_modem_state (s : SignalState) :
    (teardown_refresh_context s).modem_state = s.modem_state := by
  unfold teardown_refresh_context
  rw [destroy_refresh_ctx_modem_state, clear_values_modem_state]

lemma sched_inv_teardown (s : SignalState) (h : SchedInv s) :
    SchedInv (teardown_refresh_context s) :=
  sched_inv_of_none_empty _ (teardown_ctx_none s)
    (teardown_active_empty s h.2.1 h.2.2.1)
    (by rw [teardown_next_id]; exact h.2.2.2)

lemma handle_setup_auth_ok_state (r : Nat) (s : SignalState) (v : Unit) :
    (handle_setup_auth_ready { rate := r } (.ok v) s).2 =
      (setup_refresh_context s true r).2 := by
  rcases hsr : setup_refresh_context s true r with ⟨res, s2⟩
  cases res <;> simp [handle_setup_auth_ready, hsr]

lemma sched_inv_setup (s : SignalState) (u : Bool) (r : Nat) (h : SchedInv s) :
    SchedInv (setup_refresh_context s u r).2 := by
  obtain ⟨sk, ms, cx, so, po⟩ := s
  obtain ⟨nid, act⟩ := so
  cases sk with
  | none => exact h
  | some skel =>
    obtain ⟨h1, h2, h3, h4⟩ := h
    by_cases h0 : (if u then r else skel.rate) = 0
    · have hres : (setup_refresh_context
          ⟨some skel, ms, cx, ⟨nid, act⟩, po⟩ u r).2 =
          teardown_refresh_context
            ⟨some (if u then { skel with rate := r } else skel), ms, cx,
              ⟨nid, act⟩, po⟩ := by
        simp [setup_refresh_context, h0, teardown_refresh_context]
      rw [hres]
      exact sched_inv_teardown _ ⟨h1, h2, h3, h4⟩
    · by_cases hms : ms < MM_MODEM_STATE_ENABLING
      · have hres : (setup_refresh_context
            ⟨some skel, ms, cx, ⟨nid, act⟩, po⟩ u r).2 =
            ⟨some (if u then { skel with rate := r } else skel), ms, cx,
              ⟨nid, act⟩, po⟩ := by
          simp [setup_refresh_context, h0, hms]
        rw [hres]
        exact ⟨h1, h2, h3, h4⟩
      · cases cx with
        | some c =>
          by_cases heq : c.rate = (if u then r else skel.rate)
          · have hres : (setup_refresh_context
                ⟨some skel, ms, some c, ⟨nid, act⟩, po⟩ u r).2 =
                ⟨some (if u then { skel with rate := r } else skel), ms, some c,
                  ⟨nid, act⟩, po⟩ := by
              simp [setup_refresh_context, h0, hms, heq]
            rw [hres]
            exact ⟨h1, h2, h3, h4⟩
          · obtain ⟨hts, hact⟩ := h2 c rfl
            have hres : (setup_refresh_context
                ⟨some skel, ms, some c, ⟨nid, act⟩, po⟩ u r).2 =
                ⟨some (if u then { skel with rate := r } else skel), ms,
                  some ⟨(if u then r else skel.rate), nid⟩,
                  ⟨nid + 1, [(nid, (if u then r else skel.rate))]⟩, po + 1⟩ := by
              simp only [] at hact
              simp [setup_refresh_context, h0, hms, heq, hts, g_source_remove,
                g_timeout_add_seconds, refresh_context_cb, hact]
            rw [hres]
            refine ⟨fun _ => Int.not_lt.mp hms, ?_, fun hcon => Option.noConfusion hcon,
              Nat.succ_pos _⟩
            intro c2 hc2
            injection hc2 with hc2
            subst hc2
            exact ⟨Nat.pos_iff_ne_zero.mp h4, rfl⟩
        | none =>
          have hact : act = [] := by simpa using h3 rfl
          subst hact
          have h0' : (0 : Nat) ≠ (if u then r else skel.rate) :=
            fun hh => h0 hh.symm
          have hres : (setup_refresh_context
              ⟨some skel, ms, none, ⟨nid, []⟩, po⟩ u r).2 =
              ⟨some (if u then { skel with rate := r } else skel), ms,
                some ⟨(if u then r else skel.rate), nid⟩,
                ⟨nid + 1, [(nid, (if u then r else skel.rate))]⟩, po + 1⟩ := by
            simp [setup_refresh_context, h0, hms, h0',
              g_timeout_add_seconds, refresh_context_cb]
          rw [hres]
          refine ⟨fun _ => Int.not_lt.mp hms, ?_, fun hcon => Option.noConfusion hcon,
            Nat.succ_pos _⟩
          intro c2 hc2
          injection hc2 with hc2
          subst hc2
          exact ⟨Nat.pos_iff_ne_zero.mp h4, rfl⟩

lemma sched_inv_init : SchedInv initState :=
  ⟨fun hne => absurd rfl hne, fun _ hc => Option.noConfusion hc,
   fun _ => rfl, Nat.one_pos⟩

lemma sched_inv_step (s : SignalState) (e : Event) (h : SchedInv s) :
    SchedInv (step s e) := by
  cases e with
  | skeletonInit =>
    cases hsk : s.skeleton with
    | some skel => simpa [step, hsk] using h
    | none =>
      have hres : step s .skeletonInit =
          clear_values { s with skeleton := some initialSkeleton } := by
        simp [step, hsk]
      rw [hres]
      exact sched_inv_fields _ s (by simp) (by simp) (by simp) h
  | enable => exact sched_inv_setup s false 0 h
  | disable => exact sched_inv_teardown s h
  | setup auth rate =>
    cases auth with
    | error e => simpa [step, handle_setup, handle_setup_auth_ready] using h
    | ok v =>
      have hres : step s (.setup (.ok v) rate) =
          (setup_refresh_context s true rate).2 := by
        simp [step, handle_setup, handle_setup_auth_ok_state]
      rw [hres]
      exact sched_inv_setup s true rate h
  | tick id =>
    by_cases hg : s.sources.active.any (fun p => p.1 = id)
    · have hres : step s (.tick id) = { s with polls := s.polls + 1 } := by
        simp [step, hg, refresh_context_cb]
      rw [hres]
      exact sched_inv_fields _ s rfl rfl rfl h
    · simpa [step, hg] using h
  | loadReady res =>
    cases res with
    | error e =>
      have hres : step s (.loadReady (.error e)) = clear_values s := rfl
      rw [hres]
      exact sched_inv_fields _ s (by simp) (by simp) (by simp) h
    | ok v =>
      cases hsk : s.skeleton with
      | none => simpa [step, load_values_ready, hsk] using h
      | some skel =>
        have hres : step s (.loadReady (.ok v)) =
            { s with skeleton := some (apply_values_skel skel v) } := by
          simp [step, load_values_ready, hsk]
        rw [hres]
        exact sched_inv_fields _ s rfl rfl rfl h
  | deviceState st =>
    by_cases hst : st < MM_MODEM_STATE_ENABLING
    · have hres : step s (.deviceState st) =
          teardown_refresh_context { s with modem_state := st } := by
        simp [step, hst, mm_iface_modem_signal_disable]
      rw [hres]
      refine sched_inv_of_none_empty _ (teardown_ctx_none _) ?_ ?_
      · exact teardown_active_empty _ h.2.1 h.2.2.1
      · rw [teardown_next_id]; exact h.2.2.2
    · have hres : step s (.deviceState st) = { s with modem_state := st } := by
        simp [step, hst]
      rw [hres]
      exact ⟨fun _ => Int.not_lt.mp hst, h.2.1, h.2.2.1, h.2.2.2⟩
  | shutdownIface =>
    exact sched_inv_fields _ s rfl rfl rfl h

lemma reachable_sched_inv (s : SignalState) (h : Reachable s) : SchedInv s := by
  induction h with
  | base => exact sched_inv_init
  | next s e _ ih => exact sched_inv_step s e ih

lemma setup_polls_unchanged_below (s : SignalState) (u : Bool) (r : Nat)
    (hms : s.modem_state < MM_MODEM_STATE_ENABLING) :
    (setup_refresh_context s u r).2.polls = s.polls := by
  obtain ⟨sk, ms, cx, so, po⟩ := s
  cases sk with
  | none => rfl
  | some skel =>
    by_cases h0 : (if u then r else skel.rate) = 0
    · simp [setup_refresh_context, h0]
    · simp only [] at hms
      simp [setup_refresh_context, h0, hms]

lemma step_polls_at_least_enabling (s : SignalState) (e : Event)
    (h : SchedInv s) (hp : (step s e).polls ≠ s.polls) :
    MM_MODEM_STATE_ENABLING ≤ s.modem_state := by
  cases e with
  | skeletonInit =>
    refine absurd ?_ hp
    cases hsk : s.skeleton with
    | some skel => simp [step, hsk]
    | none => simp [step, hsk]
  | enable =>
    by_contra hnot
    exact hp (setup_polls_unchanged_below s false 0 (Int.not_le.mp hnot))
  | disable => exact absurd (teardown_polls s) hp
  | setup auth rate =>
    cases auth with
    | error e => exact absurd rfl hp
    | ok v =>
      by_contra hnot
      refine hp ?_
      have hres : step s (.setup (.ok v) rate) =
          (setup_refresh_context s true rate).2 := by
        simp [step, handle_setup, handle_setup_auth_ok_state]
      rw [hres]
      exact setup_polls_unchanged_below s true rate (Int.not_le.mp hnot)
  | tick id =>
    by_cases hg : s.sources.active.any (fun p => p.1 = id)
    · refine h.1 ?_
      intro hempty
      rw [hempty] at hg
      simp at hg
    · exact absurd (by simp [step, hg]) hp
  | loadReady res =>
    refine absurd ?_ hp
    cases res with
    | error e => exact clear_values_polls s
    | ok v =>
      cases hsk : s.skeleton with
      | none => simp [step, load_values_ready, hsk]
      | some skel => simp [step, load_values_ready, hsk]
  | deviceState st =>
    refine absurd ?_ hp
    by_cases hst : st < MM_MODEM_STATE_ENABLING
    · have hres : step s (.deviceState st) =
          teardown_refresh_context { s with modem_state := st } := by
        simp [step, hst, mm_iface_modem_signal_disable]
      rw [hres, teardown_polls]
    · simp [step, hst]
  | shutdownIface => exact absurd rfl hp

/-- Sample state with the modem below enabling (disabled, 3), an existing
skeleton and no refresh context. -/
def belowEnablingState : SignalState :=
  { skeleton := some initialSkeleton, modem_state := 3, ctx := none,
    sources := { next_id := 1, active := [] }, polls := 0 }

/-- Reachable armed state: skeleton initialized, device moved to enabled (6),
then an authorized Setup(5) armed the timer and launched the first poll. -/
def armedReachable : SignalState :=
  step (step (step initState .skeletonInit) (.deviceState 6)) (.setup (.ok ()) 5)

/-- C2: polling never runs below enabling.  First, whenever the scheduling
procedure runs with a nonzero effective rate (explicit, or read from the
published attribute) while the modem state is below enabling, it returns
success after at most republishing the rate: no timer is armed, the context
is untouched and no poll is launched (the whole state except the published
rate is unchanged).  Second, in every reachable state of the event-loop
transition system, a step that starts a poll (grows the backend-call
counter) can only happen when the modem state is at least enabling. -/
theorem signal_C2_no_polling_below_enabling :
    (∀ (s : SignalState) (skel : SkeletonState) (u : Bool) (r : Nat),
      s.skeleton = some skel → (if u then r else skel.rate) ≠ 0 →
      s.modem_state < MM_MODEM_STATE_ENABLING →
      setup_refresh_context s u r =
        (.ok (),
          { s with
            skeleton := some (if u then { skel with rate := r } else skel) })) ∧
    (∀ (s : SignalState) (e : Event), Reachable s →
      (step s e).polls ≠ s.polls →
      MM_MODEM_STATE_ENABLING ≤ s.modem_state) := by
  constructor
  · intro s skel u r hskel h0 hms
    obtain ⟨sk, ms, cx, so, po⟩ := s
    obtain rfl : sk = some skel := hskel
    simp only [] at hms
    simp [setup_refresh_context, h0, hms]
  · intro s e hr hp
    exact step_polls_at_least_enabling s e (reachable_sched_inv s hr) hp

theorem signal_C2_witness :
    setup_refresh_context belowEnablingState true 5 =
      (.ok (), { belowEnablingState with
        skeleton := some { initialSkeleton with rate := 5 } }) ∧
    MM_MODEM_STATE_ENABLING ≤ armedReachable.modem_state :=
  ⟨signal_C2_no_polling_below_enabling.1 belowEnablingState initialSkeleton
     true 5 rfl (by decide) (by decide),
   signal_C2_no_polling_below_enabling.2 armedReachable (.tick 1)
     (Reachable.next _ _ (Reachable.next _ _ (Reachable.next _ _ Reachable.base)))
     (by decide)⟩
